import Mathlib

/-!
# Verification of the next-stallSpot stall-reservation specification

Shallow embedding of the repository's code and of the spec's Stall
Reservation Engine, with theorems settling the frozen claims.

Sections:
* `Auth` — the NextAuth credentials `authorize` function and the `jwt` /
  `session` callbacks from `src/app/api/auth/[...nextauth]/auth-options.ts`.
* `Preview` — the `handlePublish` handler and publish-button state from
  `src/components/events/EventPreview.tsx`.
* `Engine` — the Stall Reservation Engine (Layout Store, Publication Gate,
  Reservation Ledger, Booking Coordinator).  The engine's implementation is
  not among the repository files available under `src/`; its operations are
  modelled from the spec, as marked on each definition.
-/

namespace Auth

/-- The credentials record handed to `authorize`; in the TypeScript code the
fields are strings whose JavaScript-falsy value is the empty string. -/
structure Credentials where
  email : String
  password : String
deriving DecidableEq, Repr

/-- A Mongo user document as read by `User.findOne(...).lean()`:
`_id`, `name`, `email`, `password` (bcrypt hash), `role`, `profileComplete`,
`profilePicture`. -/
structure DbUser where
  mongoId : Nat
  name : String
  email : String
  password : String
  role : String
  profileComplete : Bool
  profilePicture : Option String
deriving DecidableEq, Repr

/-- The user object returned by `authorize` on success. -/
structure AuthUser where
  id : String
  name : String
  email : String
  role : String
  profileComplete : Bool
  image : Option String
deriving DecidableEq, Repr

/-- JavaScript `x || null` on an optional string: an absent or empty (falsy)
string becomes `none`. -/
def jsOrNull (s : Option String) : Option String :=
  match s with
  | none => none
  | some str => if str = "" then none else some str

/-- The `authorize` function of the credentials provider in
`auth-options.ts`.  The effectful collaborators are passed in explicitly:
`dbConnect` models the `dbConnect()` call (which may throw), `findUser`
models `User.findOne({ email })` (which may throw or find nothing), and
`compare` models `bcrypt.compare(password, hash)` (which may throw).  The
surrounding `try/catch` turns every thrown error into `null`, i.e. `none`. -/
def authorize (credentials : Option Credentials)
    (dbConnect : Except String Unit)
    (findUser : String → Except String (Option DbUser))
    (compare : String → String → Except String Bool) : Option AuthUser :=
  match credentials with
  | none => none
  | some c =>
    if c.email = "" ∨ c.password = "" then none
    else
      match dbConnect with
      | .error _ => none
      | .ok _ =>
        match findUser c.email with
        | .error _ => none
        | .ok none => none
        | .ok (some u) =>
          match compare c.password u.password with
          | .error _ => none
          | .ok false => none
          | .ok true =>
            some { id := toString u.mongoId
                   name := u.name
                   email := u.email
                   role := u.role
                   profileComplete := u.profileComplete
                   image := jsOrNull u.profilePicture }

/-- The JWT token shape used by the `jwt` and `session` callbacks. -/
structure Token where
  id : Option String
  role : Option String
  profileComplete : Option Bool
  name : Option String
  email : Option String
  picture : Option String
deriving DecidableEq, Repr

/-- `session.user` as declared in the `next-auth` module augmentation. -/
structure SessionUser where
  id : Option String
  name : Option String
  email : Option String
  image : Option String
  role : Option String
  profileComplete : Option Bool
deriving DecidableEq, Repr

/-- The NextAuth session object handed to the `session` callback. -/
structure Session where
  user : SessionUser
  expires : String
deriving DecidableEq, Repr

/-- The `jwt` callback: on initial sign-in (`user` present) it copies `id`,
`role` and `profileComplete` into the token; afterwards it returns the token
as is. -/
def jwtCallback (token : Token) (user : Option AuthUser) : Token :=
  match user with
  | none => token
  | some u =>
    { token with id := some u.id, role := some u.role,
                 profileComplete := some u.profileComplete }

/-- The `session` callback: copies `id`, `role` and `profileComplete` from
the token onto `session.user` and returns the session. -/
def sessionCallback (session : Session) (token : Token) : Session :=
  { session with
    user := { session.user with
              id := token.id, role := token.role,
              profileComplete := token.profileComplete } }

end Auth

namespace Engine

/-- Event lifecycle status: `draft`, `published` or `closed`. -/
inductive EventStatus
  | draft
  | published
  | closed
deriving DecidableEq, Repr

end Engine

namespace Preview

/-- The slice of the fetched `Event` object that `handlePublish` and the
publish button of `EventPreview.tsx` actually read. -/
structure EventView where
  status : Engine.EventStatus
  configurationComplete : Bool
deriving DecidableEq, Repr

/-- Outcome of the `handlePublish` click handler: either the POST to
`/api/events/:id/publish` is issued, or the handler throws into its own
`catch` and sets an error message instead. -/
inductive PublishOutcome
  | requested
  | rejected (msg : String)
deriving DecidableEq, Repr

/-- `handlePublish` from `EventPreview.tsx`: it throws
"Please complete stall configuration before publishing" — issuing no
request — unless `event?.configurationComplete` is truthy. -/
def handlePublish (event : Option EventView) : PublishOutcome :=
  match event with
  | none => .rejected "Please complete stall configuration before publishing"
  | some e =>
    if e.configurationComplete then .requested
    else .rejected "Please complete stall configuration before publishing"

/-- The `disabled` prop of the Publish Event button in `EventPreview.tsx`:
`!event.configurationComplete || isPublishing`. -/
def publishDisabled (e : EventView) (isPublishing : Bool) : Bool :=
  !e.configurationComplete || isPublishing

end Preview

namespace Engine

/-- An axis-aligned rectangle: the bounding box of a stall's geometry. -/
structure Rect where
  x : Int
  y : Int
  w : Int
  h : Int
deriving DecidableEq, Repr

/-- A stall specification submitted to `defineStalls`: stall number,
geometry (absent when incomplete), category and price. -/
structure StallSpec where
  stallNumber : Nat
  geometry : Option Rect
  category : String
  price : Nat
deriving DecidableEq, Repr

/-- A stall as owned by the Layout Store (`stallNumber` is unique within the
event and serves as the stall's identifier). -/
structure Stall where
  id : Nat
  stallNumber : Nat
  geometry : Option Rect
  category : String
  price : Nat
deriving DecidableEq, Repr

/-- Layout Store failures. -/
inductive LayoutError
  | Overlap
  | DuplicateNumber
  | EventFrozen
deriving DecidableEq, Repr

/-- The layout-side state of one event: its status, the
`configurationComplete` flag and its stalls. -/
structure LayoutState where
  status : EventStatus
  configurationComplete : Bool
  stalls : List Stall
deriving DecidableEq, Repr

/-- Axis-aligned bounding boxes overlap when they intersect with positive
area (sharing only an edge is not an overlap). -/
def rectsOverlap (a b : Rect) : Bool :=
  a.x < b.x + b.w && b.x < a.x + a.w && a.y < b.y + b.h && b.y < a.y + a.h

/-- Overlap lifted to optional geometry: incomplete geometry overlaps
nothing. -/
def geomOverlap (a b : Option Rect) : Bool :=
  match a, b with
  | some ra, some rb => rectsOverlap ra rb
  | _, _ => false

/-- Does the list contain a repeated element? -/
def hasDup (l : List Nat) : Bool :=
  match l with
  | [] => false
  | n :: ns => List.elem n ns || hasDup ns

/-- Do two distinct specs in the list have overlapping bounding boxes? -/
def anyOverlap (specs : List StallSpec) : Bool :=
  match specs with
  | [] => false
  | s :: ss => ss.any (fun t => geomOverlap s.geometry t.geometry) || anyOverlap ss

/-- A spec is fully configured when its price is non-zero and its geometry
is complete. -/
def specComplete (s : StallSpec) : Bool :=
  s.price != 0 && s.geometry.isSome

/-- The stall created from a spec; `stallNumber` doubles as the id. -/
def mkStall (sp : StallSpec) : Stall :=
  { id := sp.stallNumber, stallNumber := sp.stallNumber,
    geometry := sp.geometry, category := sp.category, price := sp.price }

/-- Modelled from the spec: the Layout Store operation
`defineStalls(eventId, []StallSpec)` is not among the repository files
available under `src/`.  It rejects with `EventFrozen` when the event is
already published, with `DuplicateNumber` when a stallNumber collides within
the event, and with `Overlap` when two stalls' axis-aligned bounding boxes
overlap; each rejection leaves the layout unchanged.  On success it installs
the stalls and sets `configurationComplete` true exactly when every stall
has a non-zero price and complete geometry. -/
def defineStalls (st : LayoutState) (specs : List StallSpec) :
    Except LayoutError (List Stall) × LayoutState :=
  if st.status = .published then (.error .EventFrozen, st)
  else if hasDup (specs.map (·.stallNumber)) then (.error .DuplicateNumber, st)
  else if anyOverlap specs then (.error .Overlap, st)
  else
    let stalls := specs.map mkStall
    (.ok stalls,
     { st with stalls := stalls,
               configurationComplete := specs.all specComplete })

/-- Modelled from the spec: the Publication Gate operation
`canPublish(eventId)` is not among the repository files available under
`src/`.  True iff the Layout Store reports `configurationComplete` and at
least one stall exists. -/
def canPublish (st : LayoutState) : Bool :=
  st.configurationComplete && !st.stalls.isEmpty

/-- Modelled from the spec: the server-side publish operation (the handler
behind `POST /api/events/:id/publish`) is not among the repository files
available under `src/`.  It transitions `draft → published` only when the
Publication Gate allows it. -/
def publishEvent (st : LayoutState) : Except String LayoutState :=
  if st.status = .draft && canPublish st then
    .ok { st with status := .published }
  else .error "cannot publish"

/-- Reservation state of a stall. -/
inductive RState
  | available
  | held
  | confirmed
  | released
deriving DecidableEq, Repr

/-- One Reservation Ledger record: 1:1 with a stall once the event is
published.  `version` is the monotonic counter for optimistic concurrency. -/
structure ReservationRecord where
  stallId : Nat
  state : RState
  holderId : Option Nat
  heldAt : Option Nat
  expiresAt : Option Nat
  confirmedAt : Option Nat
  version : Nat
deriving DecidableEq, Repr

/-- Reservation Ledger failures. -/
inductive LedgerError
  | StateMismatch
  | VersionConflict
  | NotFound
deriving DecidableEq, Repr

/-- The Reservation Ledger: the records, looked up by `stallId`. -/
abbrev Ledger := List ReservationRecord

/-- Look up the record of a stall. -/
def Ledger.lookup (led : Ledger) (sid : Nat) : Option ReservationRecord :=
  led.find? (fun r => r.stallId == sid)

/-- Replace the record of `r.stallId` by `r`. -/
def Ledger.update (led : Ledger) (r : ReservationRecord) : Ledger :=
  led.map (fun x => if x.stallId == r.stallId then r else x)

/-- Hold time-to-live, a configuration parameter (the spec's scenario uses
300 seconds). -/
def HOLD_TTL : Nat := 300

/-- The state transitions the Ledger performs, exactly the arrows of the
spec's per-stall state machine: `available→held`, `held→confirmed`,
`held→available` (expiry or voluntary cancel) and the exceptional
administrative `confirmed→available`. -/
def allowedTransition (a b : RState) : Bool :=
  match a, b with
  | .available, .held => true
  | .held, .confirmed => true
  | .held, .available => true
  | .confirmed, .available => true
  | _, _ => false

/-- Field updates per transition type: `available→held` sets the holder and
the timestamps (`expiresAt = now + HOLD_TTL`); `held→confirmed` stamps
`confirmedAt`; a release back to `available` clears the holder.  Every
transition increments `version`. -/
def applyTransition (r : ReservationRecord) (newState : RState)
    (holder : Option Nat) (now : Nat) : ReservationRecord :=
  match r.state, newState with
  | .available, .held =>
    { r with state := .held, holderId := holder, heldAt := some now,
             expiresAt := some (now + HOLD_TTL), version := r.version + 1 }
  | .held, .confirmed =>
    { r with state := .confirmed, confirmedAt := some now,
             version := r.version + 1 }
  | .held, .available =>
    { r with state := .available, holderId := none, version := r.version + 1 }
  | .confirmed, .available =>
    { r with state := .available, holderId := none, version := r.version + 1 }
  | _, _ => r

/-- Modelled from the spec: the Reservation Ledger operation
`tryTransition(stallId, expectedState, newState, holderId, now)` is not
among the repository files available under `src/`.  The compare-and-swap
primitive: it succeeds only if the record exists, its current state equals
`expectedState`, its version matches the caller's last-known version, and
the requested transition is one the state machine allows (`held→confirmed`
additionally only for the same holder).  On success the version increments
and timestamps update per transition type; on failure the ledger is
returned unchanged. -/
def tryTransition (led : Ledger) (sid : Nat) (expected newState : RState)
    (holder : Option Nat) (expectedVersion : Nat) (now : Nat) :
    Except LedgerError ReservationRecord × Ledger :=
  match Ledger.lookup led sid with
  | none => (.error .NotFound, led)
  | some r =>
    if r.state ≠ expected then (.error .StateMismatch, led)
    else if r.version ≠ expectedVersion then (.error .VersionConflict, led)
    else if ¬ allowedTransition expected newState then (.error .StateMismatch, led)
    else if expected = .held ∧ newState = .confirmed ∧ r.holderId ≠ holder then
      (.error .StateMismatch, led)
    else
      let r2 := applyTransition r newState holder now
      (.ok r2, Ledger.update led r2)

/-- Booking Coordinator failures. -/
inductive BookingError
  | EventNotPublished
  | AlreadyTaken
  | HoldExpired
  | NotHolder
  | PaymentFailed
  | VendorHoldLimitExceeded
deriving DecidableEq, Repr

/-- Per-vendor concurrent-hold limit, a configuration parameter (the spec's
sane default is 1). -/
def VENDOR_HOLD_LIMIT : Nat := 1

/-- How many stalls the vendor currently holds. -/
def outstandingHolds (led : Ledger) (vendor : Nat) : Nat :=
  (led.filter (fun r => r.state == .held && r.holderId == some vendor)).length

/-- The ephemeral view over a held record returned to the vendor. -/
structure Hold where
  stallId : Nat
  holderId : Nat
  expiresAt : Nat
deriving DecidableEq, Repr

/-- Modelled from the spec: the Booking Coordinator operation
`requestHold(eventId, stallId, vendorId)` is not among the repository files
available under `src/`.  It checks the Publication Gate (event must be
published), then the vendor's outstanding-hold limit, then reads the
record and calls `tryTransition(available→held)` with the version it read;
a failed compare-and-swap surfaces as `AlreadyTaken`. -/
def requestHold (status : EventStatus) (led : Ledger) (sid vendor now : Nat) :
    Except BookingError Hold × Ledger :=
  if status ≠ .published then (.error .EventNotPublished, led)
  else if VENDOR_HOLD_LIMIT ≤ outstandingHolds led vendor then
    (.error .VendorHoldLimitExceeded, led)
  else
    match Ledger.lookup led sid with
    | none => (.error .AlreadyTaken, led)
    | some r =>
      match tryTransition led sid .available .held (some vendor) r.version now with
      | (.ok r2, led2) =>
        (.ok { stallId := sid, holderId := vendor,
               expiresAt := r2.expiresAt.getD 0 }, led2)
      | (.error _, _) => (.error .AlreadyTaken, led)

/-- Run a batch of `requestHold` calls against the same stall in some
serialization order (per-stall transitions are linearizable, so any
concurrent execution is equivalent to one such order); each vendor in the
list makes one call. -/
def runRequests (status : EventStatus) (led : Ledger) (sid : Nat)
    (vendors : List Nat) (now : Nat) :
    List (Except BookingError Hold) × Ledger :=
  match vendors with
  | [] => ([], led)
  | v :: vs =>
    let (res, led2) := requestHold status led sid v now
    let (rest, led3) := runRequests status led2 sid vs now
    (res :: rest, led3)

/-- Modelled from the spec: the Booking Coordinator operation
`confirmHold(stallId, vendorId, paymentReference)` is not among the
repository files available under `src/`.  It verifies that the hold belongs
to `vendorId` and has not expired before invoking the external payment
collaborator `pay`; on payment success it calls
`tryTransition(held→confirmed)`, on payment failure it calls
`tryTransition(held→available)` to release immediately.  The third
component of the result records whether the payment collaborator was
invoked. -/
def confirmHold (led : Ledger) (sid vendor : Nat) (paymentRef : Nat)
    (pay : Nat → Bool) (now : Nat) :
    Except BookingError ReservationRecord × Ledger × Bool :=
  match Ledger.lookup led sid with
  | none => (.error .NotHolder, led, false)
  | some r =>
    if r.state ≠ .held ∨ r.holderId ≠ some vendor then (.error .NotHolder, led, false)
    else if r.expiresAt.getD 0 ≤ now then (.error .HoldExpired, led, false)
    else if pay paymentRef then
      match tryTransition led sid .held .confirmed (some vendor) r.version now with
      | (.ok r2, led2) => (.ok r2, led2, true)
      | (.error _, led2) => (.error .AlreadyTaken, led2, true)
    else
      let (_, led2) := tryTransition led sid .held .available (some vendor) r.version now
      (.error .PaymentFailed, led2, true)

/-- The initial `available` record created for a stall at publication. -/
def initialRecord (sid : Nat) : ReservationRecord :=
  { stallId := sid, state := .available, holderId := none, heldAt := none,
    expiresAt := none, confirmedAt := none, version := 0 }

/-- Modelled from the spec: the Publication Gate operation
`onPublish(eventId)` is not among the repository files available under
`src/`.  One-shot creation of the initial `available` records for every
stall of the event, with the idempotency guard: a no-op when records for
the event already exist. -/
def onPublish (stalls : List Stall) (led : Ledger) : Ledger :=
  if stalls.any (fun s => (Ledger.lookup led s.id).isSome) then led
  else led ++ stalls.map (fun s => initialRecord s.id)

/-- Number of ledger records for a given stall. -/
def countRecords (led : Ledger) (sid : Nat) : Nat :=
  (led.filter (fun r => r.stallId == sid)).length

end Engine

namespace Fixtures

/-- A database user whose stored `profilePicture` is the empty string. -/
def dbUserEmptyPic : Auth.DbUser :=
  { mongoId := 7, name := "n", email := "a@b.c", password := "hash",
    role := "vendor", profileComplete := true, profilePicture := some "" }

/-- The user object `authorize` produces for `dbUserEmptyPic`. -/
def authUserEmptyPic : Auth.AuthUser :=
  { id := "7", name := "n", email := "a@b.c", role := "vendor",
    profileComplete := true, image := none }

/-- A record held by vendor 1, at version 5. -/
def heldRecord : Engine.ReservationRecord :=
  { stallId := 1, state := .held, holderId := some 1, heldAt := some 0,
    expiresAt := some 300, confirmedAt := none, version := 5 }

/-- A single configured stall. -/
def stall1 : Engine.Stall :=
  { id := 1, stallNumber := 1, geometry := some ⟨0, 0, 2, 2⟩,
    category := "food", price := 100 }

end Fixtures

/-! ## Theorems -/

/-- C10: the `jwt` callback returns the token unchanged when no user is
present, and the `session` callback copies only `id`, `role` and
`profileComplete` from the token onto `session.user`, leaving `name`,
`email`, `image` and the rest of the session unchanged. -/
theorem jwt_session_frame :
    (∀ t : Auth.Token, Auth.jwtCallback t none = t) ∧
    (∀ (s : Auth.Session) (t : Auth.Token),
      (Auth.sessionCallback s t).user.name = s.user.name ∧
      (Auth.sessionCallback s t).user.email = s.user.email ∧
      (Auth.sessionCallback s t).user.image = s.user.image ∧
      (Auth.sessionCallback s t).expires = s.expires ∧
      (Auth.sessionCallback s t).user.id = t.id ∧
      (Auth.sessionCallback s t).user.role = t.role ∧
      (Auth.sessionCallback s t).user.profileComplete = t.profileComplete) :=
  ⟨fun _ => rfl, fun _ _ => ⟨rfl, rfl, rfl, rfl, rfl, rfl, rfl⟩⟩

/-- C9 counterexample: with a stored `profilePicture` that is present but
empty, `authorize` succeeds yet returns `image = null` rather than the
stored picture (the code computes `profilePicture || null`, which maps every
falsy string to `null`). -/
theorem authorize_image_empty_counterexample :
    Auth.authorize (some { email := "a@b.c", password := "pw" }) (.ok ())
        (fun _ => .ok (some Fixtures.dbUserEmptyPic)) (fun _ _ => .ok true)
      = some Fixtures.authUserEmptyPic ∧
    Fixtures.authUserEmptyPic.image ≠ Fixtures.dbUserEmptyPic.profilePicture ∧
    Fixtures.dbUserEmptyPic.profilePicture ≠ none :=
  ⟨rfl, by decide, by decide⟩

/-- C9 (amended): `authorize` returns a user object or `null` and never
throws (every collaborator failure is caught): it returns `null` when the
email or password is missing or empty, when the database connection or
lookup fails, when no user with the given email exists, or when the bcrypt
comparison fails or errors; on success the returned `id` is the database
user's `_id` rendered as a string and `image` is the stored
`profilePicture` when that is a non-empty string, `null` otherwise. -/
theorem authorize_amended_spec (credentials : Option Auth.Credentials)
    (dbc : Except String Unit)
    (findUser : String → Except String (Option Auth.DbUser))
    (compare : String → String → Except String Bool) :
    (credentials = none → Auth.authorize credentials dbc findUser compare = none) ∧
    (∀ c, credentials = some c → c.email = "" ∨ c.password = "" →
      Auth.authorize credentials dbc findUser compare = none) ∧
    (∀ e, dbc = .error e → Auth.authorize credentials dbc findUser compare = none) ∧
    (∀ c e, credentials = some c → findUser c.email = .error e →
      Auth.authorize credentials dbc findUser compare = none) ∧
    (∀ c, credentials = some c → findUser c.email = .ok none →
      Auth.authorize credentials dbc findUser compare = none) ∧
    (∀ c u e, credentials = some c → findUser c.email = .ok (some u) →
      compare c.password u.password = .error e →
      Auth.authorize credentials dbc findUser compare = none) ∧
    (∀ c u, credentials = some c → findUser c.email = .ok (some u) →
      compare c.password u.password = .ok false →
      Auth.authorize credentials dbc findUser compare = none) ∧
    (∀ au, Auth.authorize credentials dbc findUser compare = some au →
      ∃ c u, credentials = some c ∧ findUser c.email = .ok (some u) ∧
        compare c.password u.password = .ok true ∧
        au.id = toString u.mongoId ∧ au.image = Auth.jsOrNull u.profilePicture) := by
  refine ⟨?_, ?_, ?_, ?_, ?_, ?_, ?_, ?_⟩
  · rintro rfl; rfl
  · rintro c rfl h
    simp [Auth.authorize, h]
  · rintro e rfl
    cases credentials with
    | none => rfl
    | some c =>
      by_cases h : c.email = "" ∨ c.password = "" <;>
        simp [Auth.authorize, h]
  · rintro c e rfl hf
    by_cases h : c.email = "" ∨ c.password = "" <;>
      cases dbc <;> simp [Auth.authorize, h, hf]
  · rintro c rfl hf
    by_cases h : c.email = "" ∨ c.password = "" <;>
      cases dbc <;> simp [Auth.authorize, h, hf]
  · rintro c u e rfl hf hc
    by_cases h : c.email = "" ∨ c.password = "" <;>
      cases dbc <;> simp [Auth.authorize, h, hf, hc]
  · rintro c u rfl hf hc
    by_cases h : c.email = "" ∨ c.password = "" <;>
      cases dbc <;> simp [Auth.authorize, h, hf, hc]
  · intro au hau
    cases credentials with
    | none => exact absurd hau (by simp [Auth.authorize])
    | some c =>
      refine ⟨c, ?_⟩
      by_cases h : c.email = "" ∨ c.password = ""
      · exact absurd hau (by simp [Auth.authorize, h])
      · cases dbc with
        | error e => exact absurd hau (by simp [Auth.authorize, h])
        | ok _ =>
          cases hf : findUser c.email with
          | error e => exact absurd hau (by simp [Auth.authorize, h, hf])
          | ok ou =>
            cases ou with
            | none => exact absurd hau (by simp [Auth.authorize, h, hf])
            | some u =>
              cases hc : compare c.password u.password with
              | error e => exact absurd hau (by simp [Auth.authorize, h, hf, hc])
              | ok b =>
                cases b with
                | false => exact absurd hau (by simp [Auth.authorize, h, hf, hc])
                | true =>
                  refine ⟨u, rfl, rfl, hc, ?_, ?_⟩ <;>
                    · simp [Auth.authorize, h, hf, hc] at hau
                      simp [← hau]

/-- C9 witness: the amended theorem applied at a concrete input. -/
theorem authorize_amended_spec_witness :
    Auth.authorize none (.ok ()) (fun _ => .ok none) (fun _ _ => .ok true) = none :=
  (authorize_amended_spec none (.ok ()) (fun _ => .ok none) (fun _ _ => .ok true)).1 rfl

/-- C4: the draft→published transition requires `configurationComplete`:
`handlePublish` throws instead of issuing the publish request when the flag
is false, the organizer UI's publish button is disabled, and the
(spec-modelled) server-side publish operation succeeds only from a draft
event whose configuration is complete. -/
theorem publish_requires_configuration :
    (∀ e : Preview.EventView, e.configurationComplete = false →
      Preview.handlePublish (some e) =
        .rejected "Please complete stall configuration before publishing") ∧
    (∀ (e : Preview.EventView) (b : Bool), e.configurationComplete = false →
      Preview.publishDisabled e b = true) ∧
    (∀ st st' : Engine.LayoutState, Engine.publishEvent st = .ok st' →
      st.configurationComplete = true ∧ st.status = Engine.EventStatus.draft ∧
      st'.status = Engine.EventStatus.published) := by
  refine ⟨?_, ?_, ?_⟩
  · intro e h
    simp [Preview.handlePublish, h]
  · intro e b h
    simp [Preview.publishDisabled, h]
  · intro st st' h
    unfold Engine.publishEvent at h
    split at h
    · rename_i hcond
      simp only [Bool.and_eq_true, decide_eq_true_eq, Engine.canPublish] at hcond
      obtain ⟨hdraft, hcfg, -⟩ := hcond
      cases h
      exact ⟨hcfg, hdraft, rfl⟩
    · exact absurd h (by simp)

/-- C4 witness: the theorem applied to a concrete unconfigured event. -/
theorem publish_requires_configuration_witness :
    Preview.handlePublish (some ⟨Engine.EventStatus.draft, false⟩) =
      .rejected "Please complete stall configuration before publishing" :=
  publish_requires_configuration.1 ⟨Engine.EventStatus.draft, false⟩ rfl

/-- C5: `canPublish` is true iff the layout reports `configurationComplete`
and at least one stall exists; in particular an event with complete
configuration but zero stalls is not publishable. -/
theorem canPublish_characterization (st : Engine.LayoutState) :
    (Engine.canPublish st = true ↔
      st.configurationComplete = true ∧ st.stalls ≠ []) ∧
    (st.stalls = [] → Engine.canPublish st = false) := by
  constructor
  · simp [Engine.canPublish, List.isEmpty_iff]
  · intro h
    simp [Engine.canPublish, h]

/-- C5 witness: a configured event with zero stalls is not publishable. -/
theorem canPublish_characterization_witness :
    Engine.canPublish ⟨Engine.EventStatus.draft, true, []⟩ = false :=
  (canPublish_characterization ⟨Engine.EventStatus.draft, true, []⟩).2 rfl

/-- `hasDup` detects exactly the lists that are not `Nodup`. -/
theorem hasDup_iff (l : List Nat) : Engine.hasDup l = true ↔ ¬ l.Nodup := by
  induction l with
  | nil => simp [Engine.hasDup]
  | cons n ns ih =>
    simp only [Engine.hasDup, Bool.or_eq_true, List.nodup_cons, ih, List.elem_iff]
    tauto

/-- Bounding-box overlap is symmetric. -/
theorem rectsOverlap_symm (a b : Engine.Rect) :
    Engine.rectsOverlap a b = Engine.rectsOverlap b a := by
  simp only [Engine.rectsOverlap]
  rw [Bool.eq_iff_iff]
  simp only [Bool.and_eq_true, decide_eq_true_eq]
  tauto

/-- Overlap of optional geometry is symmetric. -/
theorem geomOverlap_symm (a b : Option Engine.Rect) :
    Engine.geomOverlap a b = Engine.geomOverlap b a := by
  cases a with
  | none => cases b <;> rfl
  | some ra =>
    cases b with
    | none => rfl
    | some rb => exact rectsOverlap_symm ra rb

/-- `anyOverlap` is false exactly when the specs are pairwise
non-overlapping. -/
theorem anyOverlap_eq_false_iff (specs : List Engine.StallSpec) :
    Engine.anyOverlap specs = false ↔
      specs.Pairwise (fun a b => Engine.geomOverlap a.geometry b.geometry = false) := by
  induction specs with
  | nil => simp [Engine.anyOverlap]
  | cons s ss ih =>
    simp [Engine.anyOverlap, List.pairwise_cons, ih, List.any_eq_false]

/-- C8: `defineStalls` rejects — leaving the layout unchanged — when the
event is already published (`EventFrozen`), when two specs share a
stallNumber (`DuplicateNumber`), and when two distinct stalls' axis-aligned
bounding boxes overlap (`Overlap`); and when it succeeds it sets
`configurationComplete` true only if every stall has a non-zero price and
complete geometry. -/
theorem defineStalls_spec (st : Engine.LayoutState) (specs : List Engine.StallSpec) :
    (st.status = .published →
      Engine.defineStalls st specs = (.error .EventFrozen, st)) ∧
    (st.status ≠ .published → ¬ (specs.map (·.stallNumber)).Nodup →
      Engine.defineStalls st specs = (.error .DuplicateNumber, st)) ∧
    (st.status ≠ .published → (specs.map (·.stallNumber)).Nodup →
      ∀ i j : Fin specs.length, i ≠ j →
        Engine.geomOverlap (specs.get i).geometry (specs.get j).geometry = true →
        Engine.defineStalls st specs = (.error .Overlap, st)) ∧
    (∀ stalls, (Engine.defineStalls st specs).1 = .ok stalls →
      (Engine.defineStalls st specs).2.configurationComplete = true →
      ∀ sp ∈ specs, sp.price ≠ 0 ∧ sp.geometry.isSome = true) := by
  refine ⟨?_, ?_, ?_, ?_⟩
  · intro h
    simp [Engine.defineStalls, h]
  · intro hpub hdup
    have hd : Engine.hasDup (specs.map (·.stallNumber)) = true := (hasDup_iff _).2 hdup
    simp [Engine.defineStalls, hpub, hd]
  · intro hpub hnd i j hij hov
    have hdupf : Engine.hasDup (specs.map (·.stallNumber)) = false := by
      rcases Bool.eq_false_or_eq_true (Engine.hasDup (specs.map (·.stallNumber))) with h | h
      · exact absurd hnd ((hasDup_iff _).1 h)
      · exact h
    have hovt : Engine.anyOverlap specs = true := by
      rcases Bool.eq_false_or_eq_true (Engine.anyOverlap specs) with h | h
      · exact h
      · exfalso
        have hp := (anyOverlap_eq_false_iff specs).1 h
        rw [List.pairwise_iff_get] at hp
        rcases lt_trichotomy i j with hlt | heq | hgt
        · rw [hp i j hlt] at hov
          exact Bool.false_ne_true hov
        · exact hij heq
        · rw [geomOverlap_symm, hp j i hgt] at hov
          exact Bool.false_ne_true hov
    simp [Engine.defineStalls, hpub, hdupf, hovt]
  · intro stalls hok hcfg sp hsp
    by_cases h1 : st.status = .published
    · simp [Engine.defineStalls, h1] at hok
    · by_cases h2 : Engine.hasDup (specs.map (·.stallNumber)) = true
      · simp [Engine.defineStalls, h1, h2] at hok
      · by_cases h3 : Engine.anyOverlap specs = true
        · simp [Engine.defineStalls, h1, h2, h3] at hok
        · have hall : specs.all Engine.specComplete = true := by
            simpa [Engine.defineStalls, h1, h2, h3] using hcfg
          have := (List.all_eq_true.mp hall) sp hsp
          simpa [Engine.specComplete, Bool.and_eq_true, bne_iff_ne] using this

/-- C8 witness: defining stalls on a published event is rejected with
`EventFrozen` and leaves the layout unchanged. -/
theorem defineStalls_spec_witness :
    Engine.defineStalls ⟨Engine.EventStatus.published, false, []⟩ [] =
      (.error .EventFrozen, ⟨Engine.EventStatus.published, false, []⟩) :=
  (defineStalls_spec ⟨Engine.EventStatus.published, false, []⟩ []).1 rfl

/-- A record found by `Ledger.lookup sid` has `stallId = sid`. -/
theorem lookup_stallId {led : Engine.Ledger} {sid : Nat}
    {r : Engine.ReservationRecord} (h : Engine.Ledger.lookup led sid = some r) :
    r.stallId = sid := by
  have := List.find?_some h
  simpa using this

/-- `applyTransition` never changes the stall id. -/
theorem applyTransition_stallId (r : Engine.ReservationRecord)
    (new : Engine.RState) (holder : Option Nat) (now : Nat) :
    (Engine.applyTransition r new holder now).stallId = r.stallId := by
  obtain ⟨sid, st, ho, ha, he, hc, v⟩ := r
  cases st <;> cases new <;> rfl

/-- An allowed `applyTransition` moves the record to the requested state. -/
theorem applyTransition_state {r : Engine.ReservationRecord}
    {new : Engine.RState} (holder : Option Nat) (now : Nat)
    (h : Engine.allowedTransition r.state new = true) :
    (Engine.applyTransition r new holder now).state = new := by
  obtain ⟨sid, st, ho, ha, he, hc, v⟩ := r
  cases st <;> cases new <;>
    simp_all [Engine.allowedTransition, Engine.applyTransition]

/-- An allowed `applyTransition` increments the version. -/
theorem applyTransition_version {r : Engine.ReservationRecord}
    {new : Engine.RState} (holder : Option Nat) (now : Nat)
    (h : Engine.allowedTransition r.state new = true) :
    (Engine.applyTransition r new holder now).version = r.version + 1 := by
  obtain ⟨sid, st, ho, ha, he, hc, v⟩ := r
  cases st <;> cases new <;>
    simp_all [Engine.allowedTransition, Engine.applyTransition]

/-- After replacing the looked-up record, the lookup returns the
replacement. -/
theorem lookup_update {led : Engine.Ledger} {sid : Nat}
    {r r2 : Engine.ReservationRecord}
    (hl : Engine.Ledger.lookup led sid = some r) (h2 : r2.stallId = sid) :
    Engine.Ledger.lookup (Engine.Ledger.update led r2) sid = some r2 := by
  induction led with
  | nil => simp [Engine.Ledger.lookup] at hl
  | cons x xs ih =>
    by_cases hx : x.stallId = sid
    · simp [Engine.Ledger.lookup, Engine.Ledger.update, List.find?_cons, hx, h2]
    · simp only [Engine.Ledger.lookup, Engine.Ledger.update, List.map_cons,
        List.find?_cons] at hl ⊢
      have hxb : (x.stallId == sid) = false := beq_false_of_ne hx
      have hxr : (x.stallId == r2.stallId) = false := by
        rw [h2]; exact hxb
      rw [hxb] at hl
      simp only [hxr, Bool.false_eq_true, if_false, hxb]
      exact ih hl

/-- Elimination for a successful `tryTransition`: recover the record read
and the conditions the compare-and-swap checked. -/
theorem tryTransition_ok_elim {led : Engine.Ledger} {sid : Nat}
    {exp new : Engine.RState} {holder : Option Nat} {ver now : Nat}
    {r2 : Engine.ReservationRecord} {led2 : Engine.Ledger}
    (h : Engine.tryTransition led sid exp new holder ver now = (.ok r2, led2)) :
    ∃ r, Engine.Ledger.lookup led sid = some r ∧ r.state = exp ∧ r.version = ver ∧
      Engine.allowedTransition exp new = true ∧
      (exp = Engine.RState.held → new = Engine.RState.confirmed → r.holderId = holder) ∧
      r2 = Engine.applyTransition r new holder now ∧
      led2 = Engine.Ledger.update led r2 := by
  unfold Engine.tryTransition at h
  split at h
  · exact absurd h (by simp)
  · rename_i r hl
    split at h
    · exact absurd h (by simp)
    · rename_i hstate
      split at h
      · exact absurd h (by simp)
      · rename_i hver
        split at h
        · exact absurd h (by simp)
        · rename_i hallowed
          split at h
          · exact absurd h (by simp)
          · rename_i hholder
            simp only [Prod.mk.injEq, Except.ok.injEq] at h
            refine ⟨r, hl, not_ne_iff.mp hstate, not_ne_iff.mp hver,
              not_not.mp hallowed, ?_, h.1.symm, ?_⟩
            · intro he hn
              by_contra hne
              exact hholder ⟨he, hn, hne⟩
            · rw [← h.1]
              exact h.2.symm

/-- A failed `tryTransition` returns the ledger unchanged. -/
theorem tryTransition_error_frame {led : Engine.Ledger} {sid : Nat}
    {exp new : Engine.RState} {holder : Option Nat} {ver now : Nat}
    {e : Engine.LedgerError} {led2 : Engine.Ledger}
    (h : Engine.tryTransition led sid exp new holder ver now = (.error e, led2)) :
    led2 = led := by
  unfold Engine.tryTransition at h
  split at h
  · simp only [Prod.mk.injEq] at h
    exact h.2.symm
  · split at h
    · simp only [Prod.mk.injEq] at h
      exact h.2.symm
    · split at h
      · simp only [Prod.mk.injEq] at h
        exact h.2.symm
      · split at h
        · simp only [Prod.mk.injEq] at h
          exact h.2.symm
        · split at h
          · simp only [Prod.mk.injEq] at h
            exact h.2.symm
          · simp only [Prod.mk.injEq] at h
            exact absurd h.1 (by simp)

/-- C2 counterexample: on a record held by vendor 1, a `held→confirmed`
transition requested for vendor 2 fails even though the current state
equals the expected state and the version matches — so matching
state and version alone do not guarantee success. -/
theorem tryTransition_not_iff_counterexample :
    Engine.tryTransition [Fixtures.heldRecord] 1 .held .confirmed (some 2) 5 10
        = (.error .StateMismatch, [Fixtures.heldRecord]) ∧
    Fixtures.heldRecord.state = .held ∧
    Fixtures.heldRecord.version = 5 ∧
    Engine.Ledger.lookup [Fixtures.heldRecord] 1 = some Fixtures.heldRecord :=
  ⟨rfl, rfl, rfl, rfl⟩

/-- C2 (amended): `tryTransition` succeeds iff the record exists, its
current state equals `expectedState`, its version equals the caller's
last-known version, and the requested transition is one the state machine
allows (`held→confirmed` additionally only for the record's own holder); on
success the version is incremented, and on failure the ledger is left
unchanged. -/
theorem tryTransition_cas (led : Engine.Ledger) (sid : Nat)
    (exp new : Engine.RState) (holder : Option Nat) (ver now : Nat) :
    ((Engine.tryTransition led sid exp new holder ver now).1.isOk = true ↔
      ∃ r, Engine.Ledger.lookup led sid = some r ∧ r.state = exp ∧ r.version = ver ∧
        Engine.allowedTransition exp new = true ∧
        ¬(exp = Engine.RState.held ∧ new = Engine.RState.confirmed ∧
          r.holderId ≠ holder)) ∧
    (∀ r r2 led2, Engine.Ledger.lookup led sid = some r →
      Engine.tryTransition led sid exp new holder ver now = (.ok r2, led2) →
      r2.version = r.version + 1) ∧
    (∀ e led2, Engine.tryTransition led sid exp new holder ver now = (.error e, led2) →
      led2 = led) := by
  refine ⟨⟨?_, ?_⟩, ?_, ?_⟩
  · intro hok
    rcases hres : Engine.tryTransition led sid exp new holder ver now with ⟨res, led2⟩
    rw [hres] at hok
    cases res with
    | error e => simp [Except.isOk, Except.toBool] at hok
    | ok r2 =>
      obtain ⟨r, hl, hs, hv, ha, hh, -, -⟩ := tryTransition_ok_elim hres
      refine ⟨r, hl, hs, hv, ha, ?_⟩
      rintro ⟨he, hn, hne⟩
      exact hne (hh he hn)
  · rintro ⟨r, hl, hs, hv, ha, hh⟩
    unfold Engine.tryTransition
    rw [hl]
    have hs' : ¬ r.state ≠ exp := not_ne_iff.mpr hs
    have hv' : ¬ r.version ≠ ver := not_ne_iff.mpr hv
    simp [hs', hv', ha, hh, Except.isOk, Except.toBool]
  · intro r r2 led2 hl hok
    obtain ⟨r', hl', hs, hv, ha, hh, hr2, -⟩ := tryTransition_ok_elim hok
    have hrr : r' = r := by
      rw [hl] at hl'
      exact (Option.some.injEq _ _ ▸ hl').symm
    subst hrr
    rw [hr2]
    exact applyTransition_version holder now (by rw [hs]; exact ha)
  · intro e led2 h
    exact tryTransition_error_frame h

/-- C2 witness: the amended characterization applied at a concrete input —
the `held→confirmed` transition by the holding vendor succeeds. -/
theorem tryTransition_cas_witness :
    (Engine.tryTransition [Fixtures.heldRecord] 1 .held .confirmed (some 1) 5 10).1.isOk
      = true :=
  (tryTransition_cas [Fixtures.heldRecord] 1 .held .confirmed (some 1) 5 10).1.mpr
    ⟨Fixtures.heldRecord, rfl, rfl, rfl, rfl, by decide⟩

/-- C3: the only transitions a successful `tryTransition` ever performs are
`available→held` (setting the holder, `heldAt`, and
`expiresAt = now + HOLD_TTL`), `held→confirmed` (only for the holder of the
record), `held→available` (clearing the holder), and the administrative
`confirmed→available`; in particular a confirmed record only ever
transitions to `available`. -/
theorem ledger_transition_shapes {led : Engine.Ledger} {sid : Nat}
    {exp new : Engine.RState} {holder : Option Nat} {ver now : Nat}
    {r2 : Engine.ReservationRecord} {led2 : Engine.Ledger}
    (h : Engine.tryTransition led sid exp new holder ver now = (.ok r2, led2)) :
    ∃ r, Engine.Ledger.lookup led sid = some r ∧ r.state = exp ∧
      r2.state = new ∧
      ((r.state = .available ∧ new = .held ∧ r2.holderId = holder ∧
          r2.heldAt = some now ∧ r2.expiresAt = some (now + Engine.HOLD_TTL)) ∨
       (r.state = .held ∧ new = .confirmed ∧ r.holderId = holder ∧
          r2.confirmedAt = some now) ∨
       (r.state = .held ∧ new = .available ∧ r2.holderId = none) ∨
       (r.state = .confirmed ∧ new = .available ∧ r2.holderId = none)) := by
  obtain ⟨r, hl, hs, hv, ha, hh, hr2, hled⟩ := tryTransition_ok_elim h
  subst hs
  have ha' : Engine.allowedTransition r.state new = true := ha
  refine ⟨r, hl, rfl, ?_, ?_⟩
  · rw [hr2]
    exact applyTransition_state holder now ha'
  · subst hr2
    rcases hst : r.state with _ | _ | _ | _ <;> cases new <;>
      rw [hst] at ha' <;>
      simp only [Engine.allowedTransition, Bool.false_eq_true] at ha'
    · exact Or.inl ⟨rfl, rfl, by simp [Engine.applyTransition, hst],
        by simp [Engine.applyTransition, hst], by simp [Engine.applyTransition, hst]⟩
    · exact Or.inr (Or.inr (Or.inl ⟨rfl, rfl,
        by simp [Engine.applyTransition, hst]⟩))
    · exact Or.inr (Or.inl ⟨rfl, rfl, hh hst rfl,
        by simp [Engine.applyTransition, hst]⟩)
    · exact Or.inr (Or.inr (Or.inr ⟨rfl, rfl,
        by simp [Engine.applyTransition, hst]⟩))

/-- C3 witness: the theorem applied to the concrete `available→held`
transition. -/
theorem ledger_transition_shapes_witness :
    ∃ r, Engine.Ledger.lookup [Engine.initialRecord 1] 1 = some r ∧
      r.state = Engine.RState.available ∧
      (Engine.applyTransition (Engine.initialRecord 1) .held (some 4) 0).state
        = Engine.RState.held ∧
      ((r.state = .available ∧ Engine.RState.held = .held ∧
          (Engine.applyTransition (Engine.initialRecord 1) .held (some 4) 0).holderId
            = some 4 ∧
          (Engine.applyTransition (Engine.initialRecord 1) .held (some 4) 0).heldAt
            = some 0 ∧
          (Engine.applyTransition (Engine.initialRecord 1) .held (some 4) 0).expiresAt
            = some (0 + Engine.HOLD_TTL)) ∨
       (r.state = .held ∧ Engine.RState.held = .confirmed ∧
          r.holderId = some 4 ∧
          (Engine.applyTransition (Engine.initialRecord 1) .held (some 4) 0).confirmedAt
            = some 0) ∨
       (r.state = .held ∧ Engine.RState.held = .available ∧
          (Engine.applyTransition (Engine.initialRecord 1) .held (some 4) 0).holderId
            = none) ∨
       (r.state = .confirmed ∧ Engine.RState.held = .available ∧
          (Engine.applyTransition (Engine.initialRecord 1) .held (some 4) 0).holderId
            = none)) :=
  @ledger_transition_shapes [Engine.initialRecord 1] 1 .available .held
    (some 4) 0 0 _ _ rfl

/-- A `held→available` release through the compare-and-swap always succeeds
when the record is currently held and the caller uses the record's own
version. -/
theorem tryTransition_release {led : Engine.Ledger} {sid : Nat}
    {r : Engine.ReservationRecord} (vendor now : Nat)
    (hl : Engine.Ledger.lookup led sid = some r)
    (hstate : r.state = Engine.RState.held) :
    Engine.tryTransition led sid .held .available (some vendor) r.version now =
      (.ok (Engine.applyTransition r .available (some vendor) now),
       Engine.Ledger.update led
         (Engine.applyTransition r .available (some vendor) now)) := by
  unfold Engine.tryTransition
  rw [hl]
  have h1 : ¬ r.state ≠ Engine.RState.held := not_ne_iff.mpr hstate
  have h2 : ¬ r.version ≠ r.version := not_ne_iff.mpr rfl
  simp [h1, h2, Engine.allowedTransition]

/-- C6: `confirmHold` consults the external payment collaborator only after
verifying that the hold belongs to the vendor and has not expired; and
whenever the payment collaborator reports failure, it immediately releases
the record `held→available`, so the stall does not remain held after a
failed payment. -/
theorem confirmHold_checks (led : Engine.Ledger) (sid vendor paymentRef : Nat)
    (pay : Nat → Bool) (now : Nat) :
    ((Engine.confirmHold led sid vendor paymentRef pay now).2.2 = true →
      ∃ r, Engine.Ledger.lookup led sid = some r ∧
        r.state = Engine.RState.held ∧ r.holderId = some vendor ∧
        now < r.expiresAt.getD 0) ∧
    ((Engine.confirmHold led sid vendor paymentRef pay now).2.2 = true →
      pay paymentRef = false →
      (Engine.confirmHold led sid vendor paymentRef pay now).1 =
        .error Engine.BookingError.PaymentFailed ∧
      ∃ r2, Engine.Ledger.lookup
          (Engine.confirmHold led sid vendor paymentRef pay now).2.1 sid = some r2 ∧
        r2.state = Engine.RState.available ∧ r2.holderId = none) := by
  cases hl : Engine.Ledger.lookup led sid with
  | none =>
    refine ⟨?_, ?_⟩ <;> intro h <;>
      simp [Engine.confirmHold, hl] at h
  | some r =>
    by_cases h1 : r.state ≠ Engine.RState.held ∨ r.holderId ≠ some vendor
    · refine ⟨?_, ?_⟩ <;> intro h <;>
        simp [Engine.confirmHold, hl, h1] at h
    · push_neg at h1
      obtain ⟨hstate, hholder⟩ := h1
      by_cases h2 : r.expiresAt.getD 0 ≤ now
      · refine ⟨?_, ?_⟩ <;> intro h <;>
          simp [Engine.confirmHold, hl, hstate, hholder, h2] at h
      · by_cases h3 : pay paymentRef = true
        · constructor
          · intro _
            exact ⟨r, rfl, hstate, hholder, lt_of_not_le h2⟩
          · intro _ hpay
            rw [h3] at hpay
            exact absurd hpay (by simp)
        · have hc : Engine.confirmHold led sid vendor paymentRef pay now =
              (.error Engine.BookingError.PaymentFailed,
               Engine.Ledger.update led
                 (Engine.applyTransition r .available (some vendor) now), true) := by
            simp [Engine.confirmHold, hl, hstate, hholder, h2, h3,
              tryTransition_release vendor now hl hstate]
          rw [hc]
          constructor
          · intro _
            exact ⟨r, rfl, hstate, hholder, lt_of_not_le h2⟩
          · intro _ _
            refine ⟨rfl, Engine.applyTransition r .available (some vendor) now,
              ?_, ?_, ?_⟩
            · exact lookup_update hl
                ((applyTransition_stallId r _ _ _).trans (lookup_stallId hl))
            · simp [Engine.applyTransition, hstate]
            · simp [Engine.applyTransition, hstate]

/-- C6 witness: the checks applied to a concrete held record with a failing
payment collaborator. -/
theorem confirmHold_checks_witness :
    ∃ r, Engine.Ledger.lookup [Fixtures.heldRecord] 1 = some r ∧
      r.state = Engine.RState.held ∧ r.holderId = some 1 ∧
      10 < r.expiresAt.getD 0 :=
  (confirmHold_checks [Fixtures.heldRecord] 1 1 99 (fun _ => false) 10).1 rfl

/-- When a prefix of the ledger has no record for the stall, lookup falls
through to the suffix. -/
theorem lookup_append_of_none {led : Engine.Ledger} {sid : Nat} (xs : Engine.Ledger)
    (h : Engine.Ledger.lookup led sid = none) :
    Engine.Ledger.lookup (led ++ xs) sid = Engine.Ledger.lookup xs sid := by
  unfold Engine.Ledger.lookup at *
  rw [List.find?_append, h]
  rfl

/-- The block of initial records created for the stalls contains a record
for each of them. -/
theorem lookup_map_initial_isSome {stalls : List Engine.Stall}
    {s : Engine.Stall} (hs : s ∈ stalls) :
    (Engine.Ledger.lookup
      (stalls.map (fun t => Engine.initialRecord t.id)) s.id).isSome = true := by
  unfold Engine.Ledger.lookup
  rw [List.find?_isSome]
  exact ⟨Engine.initialRecord s.id, List.mem_map_of_mem _ hs,
    by simp [Engine.initialRecord]⟩

/-- `onPublish` is idempotent: a second call always hits the guard (or adds
nothing when there are no stalls). -/
theorem onPublish_idem (stalls : List Engine.Stall) (led : Engine.Ledger) :
    Engine.onPublish stalls (Engine.onPublish stalls led) =
      Engine.onPublish stalls led := by
  unfold Engine.onPublish
  by_cases h : stalls.any (fun s => (Engine.Ledger.lookup led s.id).isSome) = true
  · rw [if_pos h, if_pos h]
  · rw [if_neg h]
    by_cases hnil : stalls = []
    · subst hnil
      simp
    · have hnone : ∀ t ∈ stalls, Engine.Ledger.lookup led t.id = none := by
        intro t ht
        have := (List.any_eq_false.mp (Bool.eq_false_iff.mpr h)) t ht
        simpa [Option.not_isSome_iff_eq_none] using this
      obtain ⟨s, hs⟩ := List.exists_mem_of_ne_nil stalls hnil
      have hguard : (stalls.any fun t =>
          (Engine.Ledger.lookup
            (led ++ stalls.map fun u => Engine.initialRecord u.id) t.id).isSome) = true := by
        rw [List.any_eq_true]
        refine ⟨s, hs, ?_⟩
        rw [lookup_append_of_none _ (hnone s hs)]
        exact lookup_map_initial_isSome hs
      rw [if_pos hguard]

/-- C7: `onPublish` is idempotent — iterating it any positive number of
times equals one call — and after the first call on a fresh ledger there is
exactly one record per stall of the event, in state `available`. -/
theorem onPublish_idempotent_unique (stalls : List Engine.Stall) (led : Engine.Ledger)
    (hnd : (stalls.map (·.id)).Nodup)
    (hfresh : ∀ s ∈ stalls, Engine.Ledger.lookup led s.id = none) :
    (∀ n, 1 ≤ n → (Engine.onPublish stalls)^[n] led = Engine.onPublish stalls led) ∧
    (∀ s ∈ stalls, Engine.countRecords (Engine.onPublish stalls led) s.id = 1 ∧
      ∃ r, Engine.Ledger.lookup (Engine.onPublish stalls led) s.id = some r ∧
        r.state = Engine.RState.available) := by
  have hguard : (stalls.any fun s => (Engine.Ledger.lookup led s.id).isSome) = false := by
    rw [List.any_eq_false]
    intro s hs
    simp [hfresh s hs]
  have hpub : Engine.onPublish stalls led =
      led ++ stalls.map (fun s => Engine.initialRecord s.id) := by
    unfold Engine.onPublish
    rw [if_neg (by simp [hguard])]
  constructor
  · intro n hn
    induction n with
    | zero => exact absurd hn (by decide)
    | succ m ih =>
      rcases Nat.eq_zero_or_pos m with h0 | hpos
      · subst h0
        rw [Function.iterate_one]
      · rw [Function.iterate_succ_apply', ih hpos, onPublish_idem]
  · intro s hs
    constructor
    · rw [hpub]
      unfold Engine.countRecords
      rw [List.filter_append, List.length_append]
      have hzero : (led.filter (fun r => r.stallId == s.id)).length = 0 := by
        rw [List.length_eq_zero, List.filter_eq_nil_iff]
        intro a ha
        have hn := hfresh s hs
        unfold Engine.Ledger.lookup at hn
        rw [List.find?_eq_none] at hn
        exact hn a ha
      rw [hzero]
      have hmap : (List.filter (fun r => r.stallId == s.id)
          (stalls.map (fun t => Engine.initialRecord t.id))).length
          = List.countP (fun t => t.id == s.id) stalls := by
        rw [← List.countP_eq_length_filter, List.countP_map]
        rfl
      rw [hmap]
      have hcnt : List.countP (fun t => t.id == s.id) stalls
          = List.count s.id (stalls.map (·.id)) := by
        rw [List.count, List.countP_map]
        rfl
      rw [hcnt, List.count_eq_one_of_mem hnd (List.mem_map_of_mem _ hs)]
    · rw [hpub, lookup_append_of_none _ (hfresh s hs)]
      have hsome := lookup_map_initial_isSome hs
      obtain ⟨r, hr⟩ := Option.isSome_iff_exists.mp hsome
      refine ⟨r, hr, ?_⟩
      have hmem := List.mem_of_find?_eq_some hr
      obtain ⟨t, -, ht⟩ := List.mem_map.mp hmem
      rw [← ht]
      rfl

/-- C7 witness: one stall, fresh ledger — exactly one available record. -/
theorem onPublish_idempotent_unique_witness :
    Engine.countRecords (Engine.onPublish [Fixtures.stall1] []) Fixtures.stall1.id = 1 ∧
    ∃ r, Engine.Ledger.lookup (Engine.onPublish [Fixtures.stall1] [])
        Fixtures.stall1.id = some r ∧ r.state = Engine.RState.available :=
  (onPublish_idempotent_unique [Fixtures.stall1] [] (by decide)
    (fun _ _ => rfl)).2 Fixtures.stall1 (List.mem_singleton.mpr rfl)

/-- A compare-and-swap `available→held` with the record's own version
succeeds. -/
theorem tryTransition_hold {led : Engine.Ledger} {sid : Nat}
    {r : Engine.ReservationRecord} (vendor now : Nat)
    (hl : Engine.Ledger.lookup led sid = some r)
    (hr : r.state = Engine.RState.available) :
    Engine.tryTransition led sid .available .held (some vendor) r.version now =
      (.ok (Engine.applyTransition r .held (some vendor) now),
       Engine.Ledger.update led (Engine.applyTransition r .held (some vendor) now)) := by
  unfold Engine.tryTransition
  rw [hl]
  have h1 : ¬ r.state ≠ Engine.RState.available := not_ne_iff.mpr hr
  have h2 : ¬ r.version ≠ r.version := not_ne_iff.mpr rfl
  simp [h1, h2, Engine.allowedTransition]

/-- A `requestHold` against a stall that is not `available` fails with
`AlreadyTaken` and leaves the ledger unchanged, provided the gate and limit
checks pass. -/
theorem requestHold_taken {led : Engine.Ledger} {sid vendor now : Nat}
    {r : Engine.ReservationRecord}
    (hl : Engine.Ledger.lookup led sid = some r)
    (hr : r.state ≠ Engine.RState.available)
    (hlimit : Engine.outstandingHolds led vendor < Engine.VENDOR_HOLD_LIMIT) :
    Engine.requestHold .published led sid vendor now =
      (.error Engine.BookingError.AlreadyTaken, led) := by
  have htr : Engine.tryTransition led sid .available .held (some vendor) r.version now
      = (.error Engine.LedgerError.StateMismatch, led) := by
    unfold Engine.tryTransition
    rw [hl]
    simp [hr]
  simp [Engine.requestHold, hl, htr, not_le.mpr hlimit]

/-- A `requestHold` against an `available` stall by a vendor under the hold
limit succeeds and installs the held record. -/
theorem requestHold_success {led : Engine.Ledger} {sid vendor now : Nat}
    {r : Engine.ReservationRecord}
    (hl : Engine.Ledger.lookup led sid = some r)
    (hr : r.state = Engine.RState.available)
    (hlimit : Engine.outstandingHolds led vendor < Engine.VENDOR_HOLD_LIMIT) :
    Engine.requestHold .published led sid vendor now =
      (.ok { stallId := sid, holderId := vendor, expiresAt := now + Engine.HOLD_TTL },
       Engine.Ledger.update led (Engine.applyTransition r .held (some vendor) now)) := by
  simp [Engine.requestHold, hl, tryTransition_hold vendor now hl hr,
    not_le.mpr hlimit, Engine.applyTransition, hr]

/-- Updating the looked-up record with one held by another vendor cannot
create outstanding holds for a vendor who had none. -/
theorem outstandingHolds_update_other {led : Engine.Ledger}
    {r2 : Engine.ReservationRecord} {w : Nat}
    (h0 : Engine.outstandingHolds led w = 0) (hr2 : r2.holderId ≠ some w) :
    Engine.outstandingHolds (Engine.Ledger.update led r2) w = 0 := by
  unfold Engine.outstandingHolds Engine.Ledger.update at *
  rw [List.length_eq_zero, List.filter_eq_nil_iff] at h0 ⊢
  intro a ha
  obtain ⟨x, hx, hxa⟩ := List.mem_map.mp ha
  by_cases hxs : (x.stallId == r2.stallId) = true
  · rw [if_pos hxs] at hxa
    subst hxa
    simp [hr2]
  · rw [if_neg hxs] at hxa
    subst hxa
    exact h0 x hx

/-- Once the stall is no longer available, every further `requestHold` in
the batch fails with `AlreadyTaken` and the ledger stays fixed. -/
theorem runRequests_all_taken {led : Engine.Ledger} {sid now : Nat}
    {r : Engine.ReservationRecord}
    (hl : Engine.Ledger.lookup led sid = some r)
    (hr : r.state ≠ Engine.RState.available) :
    ∀ vs : List Nat, (∀ w ∈ vs, Engine.outstandingHolds led w = 0) →
      Engine.runRequests .published led sid vs now =
        (vs.map (fun _ => Except.error Engine.BookingError.AlreadyTaken), led) := by
  intro vs
  induction vs with
  | nil => intro _; rfl
  | cons w ws ih =>
    intro hfree
    have hw : Engine.outstandingHolds led w < Engine.VENDOR_HOLD_LIMIT := by
      rw [hfree w (List.mem_cons_self w ws)]
      decide
    have h1 := @requestHold_taken led sid w now r hl hr hw
    simp only [Engine.runRequests, h1]
    rw [ih (fun u hu => hfree u (List.mem_cons_of_mem _ hu))]
    rfl

/-- C1 counterexample: the same vendor racing against itself on an
available stall — the first call succeeds, but the second fails with
`VendorHoldLimitExceeded` rather than `AlreadyTaken`, because the
outstanding-hold limit is checked before the ledger transition. -/
theorem requestHold_limit_counterexample :
    (Engine.runRequests .published [Engine.initialRecord 1] 1 [7, 7] 0).1 =
      [.ok { stallId := 1, holderId := 7, expiresAt := 300 },
       .error Engine.BookingError.VendorHoldLimitExceeded] ∧
    Engine.BookingError.VendorHoldLimitExceeded ≠ Engine.BookingError.AlreadyTaken ∧
    (Engine.initialRecord 1).state = Engine.RState.available :=
  ⟨rfl, by decide, rfl⟩


/-- Unfolding equation for one step of `runRequests`. -/
theorem runRequests_cons (status : Engine.EventStatus) (led : Engine.Ledger)
    (sid now v : Nat) (vs : List Nat) :
    Engine.runRequests status led sid (v :: vs) now =
      ((Engine.requestHold status led sid v now).1 ::
        (Engine.runRequests status (Engine.requestHold status led sid v now).2
          sid vs now).1,
       (Engine.runRequests status (Engine.requestHold status led sid v now).2
          sid vs now).2) := by
  rcases hcall : Engine.requestHold status led sid v now with ⟨res0, led2⟩
  rcases hrec : Engine.runRequests status led2 sid vs now with ⟨rest, led3⟩
  simp [Engine.runRequests, hcall, hrec]

/-- A `requestHold` on an unpublished event is rejected by the gate and
leaves the ledger unchanged. -/
theorem requestHold_unpublished {status : Engine.EventStatus}
    {led : Engine.Ledger} {sid v now : Nat}
    (h : status ≠ Engine.EventStatus.published) :
    Engine.requestHold status led sid v now =
      (.error Engine.BookingError.EventNotPublished, led) := by
  simp [Engine.requestHold, h]

/-- A `requestHold` by a vendor at the outstanding-hold limit is rejected
with `VendorHoldLimitExceeded` and leaves the ledger unchanged. -/
theorem requestHold_limit {led : Engine.Ledger} {sid v now : Nat}
    (h : Engine.VENDOR_HOLD_LIMIT ≤ Engine.outstandingHolds led v) :
    Engine.requestHold .published led sid v now =
      (.error Engine.BookingError.VendorHoldLimitExceeded, led) := by
  simp [Engine.requestHold, h]

/-- Elimination for a successful `requestHold`: the event was published, the
stall was available, and it is held afterwards. -/
theorem requestHold_ok_elim {status : Engine.EventStatus} {led : Engine.Ledger}
    {sid v now : Nat} {h : Engine.Hold} {led' : Engine.Ledger}
    (heq : Engine.requestHold status led sid v now = (.ok h, led')) :
    status = Engine.EventStatus.published ∧
    ∃ r, Engine.Ledger.lookup led sid = some r ∧
      r.state = Engine.RState.available ∧
      ∃ r', Engine.Ledger.lookup led' sid = some r' ∧
        r'.state = Engine.RState.held := by
  unfold Engine.requestHold at heq
  split at heq
  · exact absurd heq (by simp)
  · rename_i hpub
    split at heq
    · exact absurd heq (by simp)
    · split at heq
      · exact absurd heq (by simp)
      · rename_i r hl
        split at heq
        · rename_i r2 led2 htr
          simp only [Prod.mk.injEq] at heq
          obtain ⟨rr, hl', hs, hv2, ha, hh, hr2, hled⟩ := tryTransition_ok_elim htr
          refine ⟨not_ne_iff.mp hpub, rr, hl', hs, r2, ?_, ?_⟩
          · rw [← heq.2, hled]
            exact lookup_update hl'
              (hr2 ▸ (applyTransition_stallId rr _ _ _).trans (lookup_stallId hl'))
          · rw [hr2]
            exact applyTransition_state (some v) now (by rw [hs]; rfl)
        · exact absurd heq (by simp)

/-- Elimination for a failed `requestHold`: the ledger is unchanged and the
error is the discriminated kind the prechecks dictate. -/
theorem requestHold_error_elim {status : Engine.EventStatus} {led : Engine.Ledger}
    {sid v now : Nat} {e : Engine.BookingError} {led' : Engine.Ledger}
    (heq : Engine.requestHold status led sid v now = (.error e, led')) :
    led' = led ∧
    (status ≠ Engine.EventStatus.published →
      e = Engine.BookingError.EventNotPublished) ∧
    (status = Engine.EventStatus.published →
      e = Engine.BookingError.AlreadyTaken ∨
      e = Engine.BookingError.VendorHoldLimitExceeded) := by
  unfold Engine.requestHold at heq
  split at heq
  · rename_i hpub
    simp only [Prod.mk.injEq, Except.error.injEq] at heq
    exact ⟨heq.2.symm, fun _ => heq.1.symm, fun hs => absurd hs hpub⟩
  · rename_i hpub
    split at heq
    · simp only [Prod.mk.injEq, Except.error.injEq] at heq
      exact ⟨heq.2.symm, fun hne => absurd (not_ne_iff.mp hpub) hne,
        fun _ => Or.inr heq.1.symm⟩
    · split at heq
      · simp only [Prod.mk.injEq, Except.error.injEq] at heq
        exact ⟨heq.2.symm, fun hne => absurd (not_ne_iff.mp hpub) hne,
          fun _ => Or.inl heq.1.symm⟩
      · split at heq
        · exact absurd heq (by simp)
        · simp only [Prod.mk.injEq, Except.error.injEq] at heq
          exact ⟨heq.2.symm, fun hne => absurd (not_ne_iff.mp hpub) hne,
            fun _ => Or.inl heq.1.symm⟩

/-- When the stall has no available record, every `requestHold` fails and
leaves the ledger unchanged. -/
theorem requestHold_no_available {status : Engine.EventStatus}
    {led : Engine.Ledger} {sid v now : Nat}
    (h : ∀ r, Engine.Ledger.lookup led sid = some r →
      r.state ≠ Engine.RState.available) :
    ∃ e, Engine.requestHold status led sid v now = (.error e, led) := by
  by_cases h1 : status ≠ Engine.EventStatus.published
  · exact ⟨.EventNotPublished, by simp [Engine.requestHold, h1]⟩
  · by_cases h2 : Engine.VENDOR_HOLD_LIMIT ≤ Engine.outstandingHolds led v
    · exact ⟨.VendorHoldLimitExceeded, by simp [Engine.requestHold, h1, h2]⟩
    · cases hl : Engine.Ledger.lookup led sid with
      | none => exact ⟨.AlreadyTaken, by simp [Engine.requestHold, h1, h2, hl]⟩
      | some r =>
        have htr : Engine.tryTransition led sid .available .held (some v)
            r.version now = (.error Engine.LedgerError.StateMismatch, led) := by
          unfold Engine.tryTransition
          rw [hl]
          simp [h r hl]
        exact ⟨.AlreadyTaken, by simp [Engine.requestHold, h1, h2, hl, htr]⟩

/-- When the stall has no available record, the whole batch fails. -/
theorem runRequests_all_fail (status : Engine.EventStatus) (sid now : Nat) :
    ∀ (vs : List Nat) (led : Engine.Ledger),
      (∀ r, Engine.Ledger.lookup led sid = some r →
        r.state ≠ Engine.RState.available) →
      ∀ res ∈ (Engine.runRequests status led sid vs now).1,
        res.isOk = false := by
  intro vs
  induction vs with
  | nil =>
    intro led _ res hres
    simp [Engine.runRequests] at hres
  | cons w ws ih =>
    intro led h res hres
    obtain ⟨e, hcall⟩ := @requestHold_no_available status led sid w now h
    rw [runRequests_cons, hcall] at hres
    rcases List.mem_cons.mp hres with hh | hh
    · subst hh
      simp [Except.isOk, Except.toBool]
    · exact ih led h res hh

/-- At most one `requestHold` in any serialization succeeds, over any event
status, ledger and vendor list. -/
theorem runRequests_at_most_one (status : Engine.EventStatus) (sid now : Nat) :
    ∀ (vendors : List Nat) (led : Engine.Ledger),
      (Engine.runRequests status led sid vendors now).1.countP
        (fun res => res.isOk) ≤ 1 := by
  intro vendors
  induction vendors with
  | nil => intro led; simp [Engine.runRequests]
  | cons v vs ih =>
    intro led
    rcases hcall : Engine.requestHold status led sid v now with ⟨res0, led2⟩
    rw [runRequests_cons, hcall]
    show (res0 :: (Engine.runRequests status led2 sid vs now).1).countP
        (fun res => res.isOk) ≤ 1
    rw [List.countP_cons]
    cases res0 with
    | error e =>
      simpa [Except.isOk, Except.toBool] using ih led2
    | ok h =>
      obtain ⟨-, r, hl, hav, r', hl', hheld⟩ := requestHold_ok_elim hcall
      have htaken : ∀ r'', Engine.Ledger.lookup led2 sid = some r'' →
          r''.state ≠ Engine.RState.available := by
        intro r'' h''
        rw [hl'] at h''
        have hr : r' = r'' := Option.some.inj h''
        rw [← hr, hheld]
        simp
      have hfail := runRequests_all_fail status sid now vs led2 htaken
      have hzero : (Engine.runRequests status led2 sid vs now).1.countP
          (fun res => res.isOk) = 0 := by
        rw [List.countP_eq_zero]
        intro a ha
        simp only [Bool.not_eq_true]
        exact hfail a ha
      rw [hzero]
      simp [Except.isOk, Except.toBool]

/-- Every result of a serialization is classified by the prechecks: on an
unpublished event every call gets `EventNotPublished`; on a published event
a failing call gets `AlreadyTaken` or `VendorHoldLimitExceeded`. -/
theorem runRequests_error_kinds (status : Engine.EventStatus) (sid now : Nat) :
    ∀ (vs : List Nat) (led : Engine.Ledger),
      ∀ res ∈ (Engine.runRequests status led sid vs now).1,
        (status ≠ Engine.EventStatus.published →
          res = .error Engine.BookingError.EventNotPublished) ∧
        (status = Engine.EventStatus.published → res.isOk = false →
          res = .error Engine.BookingError.AlreadyTaken ∨
          res = .error Engine.BookingError.VendorHoldLimitExceeded) := by
  intro vs
  induction vs with
  | nil =>
    intro led res hres
    simp [Engine.runRequests] at hres
  | cons w ws ih =>
    intro led res hres
    rcases hcall : Engine.requestHold status led sid w now with ⟨res0, led2⟩
    rw [runRequests_cons, hcall] at hres
    have hres2 : res ∈ res0 :: (Engine.runRequests status led2 sid ws now).1 := hres
    rcases List.mem_cons.mp hres2 with hh | hh
    · subst hh
      constructor
      · intro hne
        cases res with
        | ok h =>
          obtain ⟨hpub, -⟩ := requestHold_ok_elim hcall
          exact absurd hpub hne
        | error e =>
          obtain ⟨-, h2, -⟩ := requestHold_error_elim hcall
          rw [h2 hne]
      · intro hpub hfail
        cases res with
        | ok h => simp [Except.isOk, Except.toBool] at hfail
        | error e =>
          obtain ⟨-, -, h3⟩ := requestHold_error_elim hcall
          rcases h3 hpub with he | he
          · left
            rw [he]
          · right
            rw [he]
    · exact ih led2 res hh

/-- C1 (amended): for every serialization of concurrent `requestHold` calls
against one stall, at most one call succeeds; every call on an unpublished
event gets `EventNotPublished`; on a published event every failing call
gets `AlreadyTaken` or `VendorHoldLimitExceeded`, and a call whose vendor
is at the outstanding-hold limit when it executes gets
`VendorHoldLimitExceeded`; in particular, when distinct vendors with no
outstanding holds race on an available stall, every losing call gets
`AlreadyTaken`. -/
theorem no_double_booking (status : Engine.EventStatus) (led : Engine.Ledger)
    (sid now : Nat) (vendors : List Nat) :
    ((Engine.runRequests status led sid vendors now).1.countP
        (fun res => res.isOk) ≤ 1) ∧
    (status ≠ Engine.EventStatus.published →
      ∀ res ∈ (Engine.runRequests status led sid vendors now).1,
        res = .error Engine.BookingError.EventNotPublished) ∧
    (status = Engine.EventStatus.published →
      ∀ res ∈ (Engine.runRequests status led sid vendors now).1,
        res.isOk = false →
        res = .error Engine.BookingError.AlreadyTaken ∨
        res = .error Engine.BookingError.VendorHoldLimitExceeded) ∧
    (∀ (led' : Engine.Ledger) (v : Nat),
      Engine.VENDOR_HOLD_LIMIT ≤ Engine.outstandingHolds led' v →
      (Engine.requestHold .published led' sid v now).1 =
        .error Engine.BookingError.VendorHoldLimitExceeded) ∧
    (status = Engine.EventStatus.published →
      ∀ r, Engine.Ledger.lookup led sid = some r →
      r.state = Engine.RState.available → vendors.Nodup →
      (∀ v ∈ vendors, Engine.outstandingHolds led v = 0) →
      ∀ res ∈ (Engine.runRequests status led sid vendors now).1,
        res.isOk = false → res = .error Engine.BookingError.AlreadyTaken) := by
  refine ⟨runRequests_at_most_one status sid now vendors led, ?_, ?_, ?_, ?_⟩
  · intro hne res hres
    exact (runRequests_error_kinds status sid now vendors led res hres).1 hne
  · intro hpub res hres hfail
    exact (runRequests_error_kinds status sid now vendors led res hres).2 hpub hfail
  · intro led' v h
    rw [requestHold_limit h]
  · intro hpub r hl hr hnd hfree res hres hfail
    subst hpub
    cases vendors with
    | nil => simp [Engine.runRequests] at hres
    | cons v vs =>
      have hv : Engine.outstandingHolds led v < Engine.VENDOR_HOLD_LIMIT := by
        rw [hfree v (List.mem_cons_self v vs)]
        decide
      have hsucc := @requestHold_success led sid v now r hl hr hv
      have hl2 : Engine.Ledger.lookup (Engine.Ledger.update led
          (Engine.applyTransition r .held (some v) now)) sid =
          some (Engine.applyTransition r .held (some v) now) :=
        lookup_update hl ((applyTransition_stallId r _ _ _).trans (lookup_stallId hl))
      have hstate2 : (Engine.applyTransition r .held (some v) now).state
          = Engine.RState.held := by
        simp [Engine.applyTransition, hr]
      have hholder2 : (Engine.applyTransition r .held (some v) now).holderId
          = some v := by
        simp [Engine.applyTransition, hr]
      have hfree2 : ∀ w ∈ vs, Engine.outstandingHolds
          (Engine.Ledger.update led (Engine.applyTransition r .held (some v) now)) w
            = 0 := by
        intro w hw
        refine outstandingHolds_update_other (hfree w (List.mem_cons_of_mem _ hw)) ?_
        rw [hholder2]
        intro hcontr
        have hvw : v = w := by
          injection hcontr
        exact (List.nodup_cons.mp hnd).1 (hvw ▸ hw)
      have hrest := @runRequests_all_taken _ sid now _ hl2 (by simp [hstate2]) vs hfree2
      have hrun : Engine.runRequests .published led sid (v :: vs) now =
          (.ok { stallId := sid, holderId := v, expiresAt := now + Engine.HOLD_TTL } ::
            vs.map (fun _ => Except.error Engine.BookingError.AlreadyTaken),
           Engine.Ledger.update led (Engine.applyTransition r .held (some v) now)) := by
        simp only [Engine.runRequests, hsucc]
        rw [hrest]
      rw [hrun] at hres
      rcases List.mem_cons.mp hres with h | h
      · subst h
        simp [Except.isOk, Except.toBool] at hfail
      · obtain ⟨w, -, hwres⟩ := List.mem_map.mp h
        exact hwres.symm

/-- C1 witness: the distinct-vendors clause on a concrete race, and the
limit clause on a concrete at-limit vendor. -/
theorem no_double_booking_witness :
    (∀ res ∈ (Engine.runRequests .published [Engine.initialRecord 1] 1 [7, 8] 0).1,
      res.isOk = false → res = .error Engine.BookingError.AlreadyTaken) ∧
    (Engine.requestHold .published [Fixtures.heldRecord] 1 1 0).1 =
      .error Engine.BookingError.VendorHoldLimitExceeded :=
  ⟨(no_double_booking .published [Engine.initialRecord 1] 1 0 [7, 8]).2.2.2.2
      rfl (Engine.initialRecord 1) rfl rfl (by decide) (fun _ _ => rfl),
   (no_double_booking .published [Fixtures.heldRecord] 1 0 []).2.2.2.1
      [Fixtures.heldRecord] 1 (by decide)⟩
